import Mathlib

/-!
Verification of the `fbmessenger` Go library (outbound object-model
serialization, the webhook dispatcher, and the sender's response checking)
against its natural-language specification.

The Go code is shallowly embedded: each `Source()` method becomes a Lean
function producing a `GoVal` (a model of the dynamic `interface\x7b\x7d`
value trees the Go code builds), each struct becomes a Lean structure, and
the dispatcher's classification and emission logic becomes pure functions
returning the list of events delivered to the listener, in delivery order.
JSON numbers are modelled as integers (the payload fields the library reads
are ids, timestamps and sequence numbers; no claim touches a fractional
value).
-/

namespace Fbmessenger

/-- JSON value trees.  Numbers are modelled as integers (see module note). -/
inductive Json where
  | null : Json
  | bool (b : Bool) : Json
  | num (n : Int) : Json
  | str (s : String) : Json
  | arr (elems : List Json) : Json
  | obj (fields : List (String × Json)) : Json

/-- Dynamic Go values as built by the `Source()` methods
(`map[string]interface\x7b\x7d`, strings, bools, slices).  A nil slice
(`var xs []interface\x7b\x7d` with nothing appended) is distinguished from a
non-empty one because `encoding/json` marshals a nil slice as `null`. -/
inductive GoVal where
  | str (s : String) : GoVal
  | bool (b : Bool) : GoVal
  | nilSlice : GoVal
  | list (elems : List GoVal) : GoVal
  | obj (fields : List (String × GoVal)) : GoVal

/-- Result of a Go `append` loop starting from a nil slice: still nil when
nothing was appended, a real slice otherwise. -/
def goSlice (xs : List GoVal) : GoVal :=
  match xs with
  | [] => GoVal.nilSlice
  | _ => GoVal.list xs

/-- Association lookup in a rendered object (first binding wins; the
`Source()` methods never bind a key twice, mirroring Go map insertion). -/
def lookupKey (fields : List (String × GoVal)) (k : String) : Option GoVal :=
  (fields.find? (fun kv => kv.1 == k)).map (fun kv => kv.2)

/-- Key lookup on a `GoVal`, defined only on objects. -/
def GoVal.getKey (v : GoVal) (k : String) : Option GoVal :=
  match v with
  | GoVal.obj fields => lookupKey fields k
  | _ => none

mutual

/-- Marshalling a `GoVal` to JSON: a nil slice marshals as `null`
(`encoding/json` semantics); field order is preserved by the model. -/
def GoVal.marshal : GoVal → Json
  | GoVal.str s => Json.str s
  | GoVal.bool b => Json.bool b
  | GoVal.nilSlice => Json.null
  | GoVal.list elems => Json.arr (marshalElems elems)
  | GoVal.obj fields => Json.obj (marshalFields fields)

/-- Marshals the elements of a non-nil slice in order. -/
def marshalElems : List GoVal → List Json
  | [] => []
  | v :: vs => v.marshal :: marshalElems vs

/-- Marshals the bindings of an object in order. -/
def marshalFields : List (String × GoVal) → List (String × Json)
  | [] => []
  | (k, v) :: kvs => (k, v.marshal) :: marshalFields kvs

end

/-- Recipient variants (`User`, `PhoneNumber`): the closed set of the
library's own `Recipient` implementations. -/
inductive Recipient where
  | user (id : String) : Recipient
  | phoneNumber (n : String) : Recipient

/-- Go `User.Source` / `PhoneNumber.Source`. -/
def Recipient.Source (r : Recipient) : Except String GoVal :=
  match r with
  | Recipient.user id => Except.ok (GoVal.obj [("id", GoVal.str id)])
  | Recipient.phoneNumber n => Except.ok (GoVal.obj [("phone_number", GoVal.str n)])

/-- Go `QuickReply` struct. -/
structure QuickReply where
  title : String
  imageURL : String
  payload : String
  askForLocation : Bool

/-- Go `QuickReply.Source`. -/
def QuickReply.Source (qr : QuickReply) : Except String GoVal :=
  let src : List (String × GoVal) :=
    (if qr.title != "" then [("title", GoVal.str qr.title)] else []) ++
    (if qr.imageURL != "" then [("image_url", GoVal.str qr.imageURL)] else []) ++
    (if qr.payload != "" then [("payload", GoVal.str qr.payload)] else []) ++
    (if qr.askForLocation then [("content_type", GoVal.str "location")]
     else [("content_type", GoVal.str "text")])
  Except.ok (GoVal.obj src)

/-- Go `MultimediaAttachment` struct (`Type` is the `MultimediaType` string). -/
structure MultimediaAttachment where
  type : String
  url : String
  attachmentID : String
  reusable : Bool

/-- Go `MultimediaAttachment.Source`. -/
def MultimediaAttachment.Source (a : MultimediaAttachment) : Except String GoVal :=
  let payload : List (String × GoVal) :=
    if a.attachmentID != "" then [("attachment_id", GoVal.str a.attachmentID)]
    else
      [("url", GoVal.str a.url)] ++
      (if a.reusable then [("is_reusable", GoVal.bool true)] else [])
  Except.ok (GoVal.obj [("type", GoVal.str a.type), ("payload", GoVal.obj payload)])

/-- Go `URLButton` struct (`WebviewHeightRatio` is a string type). -/
structure URLButton where
  title : String
  url : String
  webviewHeightRatio : String
  messengerExtensions : Bool
  fallbackURL : String

/-- Go `PostbackButton` struct. -/
structure PostbackButton where
  title : String
  payload : String

/-- Go `CallButton` struct. -/
structure CallButton where
  title : String
  phoneNumber : String

/-- Go `AccountLinkButton` struct. -/
structure AccountLinkButton where
  url : String

/-- Button variants: the closed set of the library's own `Button`
implementations (`ShareButton` and `AccountUnlinkButton` carry no fields). -/
inductive Button where
  | url (b : URLButton) : Button
  | postback (b : PostbackButton) : Button
  | call (b : CallButton) : Button
  | share : Button
  | accountLink (b : AccountLinkButton) : Button
  | accountUnlink : Button

/-- The `Source` methods of the six button types. -/
def Button.Source (b : Button) : Except String GoVal :=
  match b with
  | Button.url b =>
      let src : List (String × GoVal) :=
        [("type", GoVal.str "web_url"), ("title", GoVal.str b.title),
         ("url", GoVal.str b.url)] ++
        (if b.webviewHeightRatio != "" then
          [("webview_height_ratio", GoVal.str b.webviewHeightRatio)] else []) ++
        (if b.messengerExtensions then
          [("messenger_extensions", GoVal.bool b.messengerExtensions)] else []) ++
        (if b.fallbackURL != "" then [("fallback_url", GoVal.str b.fallbackURL)] else [])
      Except.ok (GoVal.obj src)
  | Button.postback b =>
      Except.ok (GoVal.obj [("type", GoVal.str "postback"), ("title", GoVal.str b.title),
        ("payload", GoVal.str b.payload)])
  | Button.call b =>
      Except.ok (GoVal.obj [("type", GoVal.str "phone_number"), ("title", GoVal.str b.title),
        ("payload", GoVal.str b.phoneNumber)])
  | Button.share =>
      Except.ok (GoVal.obj [("type", GoVal.str "element_share")])
  | Button.accountLink b =>
      Except.ok (GoVal.obj [("type", GoVal.str "account_link"), ("url", GoVal.str b.url)])
  | Button.accountUnlink =>
      Except.ok (GoVal.obj [("type", GoVal.str "account_unlink")])

/-- Renders each child with `f` in order, propagating the first error
unchanged, as the Go `for`/`append` loops with early `return nil, err` do. -/
def sourceList (f : α → Except String GoVal) : List α → Except String (List GoVal)
  | [] => Except.ok []
  | x :: xs =>
      match f x with
      | Except.error e => Except.error e
      | Except.ok v =>
          match sourceList f xs with
          | Except.error e => Except.error e
          | Except.ok vs => Except.ok (v :: vs)

/-- Go `Element` struct (`DefaultAction` is an interface field and may be nil). -/
structure Element where
  title : String
  subtitle : String
  itemURL : String
  imageURL : String
  buttons : List Button
  defaultAction : Option Button

/-- Go `Element.Source`. -/
def Element.Source (e : Element) : Except String GoVal := do
  let btnPart ←
    if e.buttons.length > 0 then
      match sourceList Button.Source e.buttons with
      | Except.error err => Except.error err
      | Except.ok btnSrcs => Except.ok [("buttons", goSlice btnSrcs)]
    else Except.ok []
  let daPart ←
    match e.defaultAction with
    | none => Except.ok []
    | some da =>
        match da.Source with
        | Except.error err => Except.error err
        | Except.ok btnSrc => Except.ok [("default_action", btnSrc)]
  Except.ok (GoVal.obj (
    [("title", GoVal.str e.title)] ++
    (if e.subtitle != "" then [("subtitle", GoVal.str e.subtitle)] else []) ++
    (if e.itemURL != "" then [("item_url", GoVal.str e.itemURL)] else []) ++
    (if e.imageURL != "" then [("image_url", GoVal.str e.imageURL)] else []) ++
    btnPart ++ daPart))

/-- Go `ButtonTemplate` struct. -/
structure ButtonTemplate where
  text : String
  buttons : List Button

/-- Go `ButtonTemplate.Source`: the buttons slice is rendered unconditionally,
so an empty list yields a nil slice under the `buttons` key. -/
def ButtonTemplate.Source (t : ButtonTemplate) : Except String GoVal :=
  match sourceList Button.Source t.buttons with
  | Except.error err => Except.error err
  | Except.ok btnSrcs =>
      Except.ok (GoVal.obj [("type", GoVal.str "template"),
        ("payload", GoVal.obj [("template_type", GoVal.str "button"),
          ("text", GoVal.str t.text), ("buttons", goSlice btnSrcs)])])

/-- Go `GenericTemplate` struct. -/
structure GenericTemplate where
  elements : List Element

/-- Go `GenericTemplate.Source`. -/
def GenericTemplate.Source (t : GenericTemplate) : Except String GoVal :=
  match sourceList Element.Source t.elements with
  | Except.error err => Except.error err
  | Except.ok elementSrcs =>
      Except.ok (GoVal.obj [("type", GoVal.str "template"),
        ("payload", GoVal.obj [("template_type", GoVal.str "generic"),
          ("elements", goSlice elementSrcs)])])

/-- Go `ListTemplate` struct (`TopElementStyle` is a string type). -/
structure ListTemplate where
  elements : List Element
  topElementStyle : String
  buttons : List Button

/-- Go `ListTemplate.Source`: `elements` is emitted unconditionally (nil slice
when empty), `top_element_style` and `buttons` only when set/non-empty. -/
def ListTemplate.Source (t : ListTemplate) : Except String GoVal := do
  let elementSrcs ←
    match sourceList Element.Source t.elements with
    | Except.error err => Except.error err
    | Except.ok vs => Except.ok vs
  let btnPart ←
    if t.buttons.length > 0 then
      match sourceList Button.Source t.buttons with
      | Except.error err => Except.error err
      | Except.ok btnSrcs => Except.ok [("buttons", goSlice btnSrcs)]
    else Except.ok []
  Except.ok (GoVal.obj [("type", GoVal.str "template"),
    ("payload", GoVal.obj (
      [("template_type", GoVal.str "list")] ++
      (if t.topElementStyle != "" then
        [("top_element_style", GoVal.str t.topElementStyle)] else []) ++
      [("elements", goSlice elementSrcs)] ++ btnPart))])

/-- Attachment variants: the closed set of the library's own `Attachment`
implementations. -/
inductive Attachment where
  | multimedia (a : MultimediaAttachment) : Attachment
  | buttonTemplate (t : ButtonTemplate) : Attachment
  | genericTemplate (t : GenericTemplate) : Attachment
  | listTemplate (t : ListTemplate) : Attachment

/-- Dispatch of `Source` over the attachment variants. -/
def Attachment.Source (a : Attachment) : Except String GoVal :=
  match a with
  | Attachment.multimedia a => a.Source
  | Attachment.buttonTemplate t => t.Source
  | Attachment.genericTemplate t => t.Source
  | Attachment.listTemplate t => t.Source

/-- Go `Message` struct (`Attachment` is an interface field and may be nil;
`NotificationType` is a string type). -/
structure Message where
  To : Recipient
  text : String
  attachment : Option Attachment
  quickReplies : List QuickReply
  metadata : String
  notificationType : String

/-- Go `Message.Source`: text takes precedence over the attachment; quick
replies are only rendered when text is present and the list is non-empty. -/
def Message.Source (m : Message) : Except String GoVal := do
  let toSrc ←
    match m.To.Source with
    | Except.error err => Except.error err
    | Except.ok v => Except.ok v
  let msg ←
    if m.text != "" then
      if m.quickReplies.length > 0 then
        match sourceList QuickReply.Source m.quickReplies with
        | Except.error err => Except.error err
        | Except.ok replies =>
            Except.ok [("text", GoVal.str m.text), ("quick_replies", goSlice replies)]
      else Except.ok [("text", GoVal.str m.text)]
    else
      match m.attachment with
      | some a =>
          match a.Source with
          | Except.error err => Except.error err
          | Except.ok src => Except.ok [("attachment", src)]
      | none => Except.ok []
  let msg := msg ++ (if m.metadata != "" then [("metadata", GoVal.str m.metadata)] else [])
  Except.ok (GoVal.obj (
    [("recipient", toSrc), ("message", GoVal.obj msg)] ++
    (if m.notificationType != "" then
      [("notification_type", GoVal.str m.notificationType)] else [])))

/-! Inbound event model (`events.go`). -/

/-- Go `Metadata` struct attached to every inbound event: page id, sender id,
recipient id and a timestamp, filled in by the dispatcher. -/
structure Metadata where
  pageID : String
  senderID : String
  recipientID : String
  timestamp : Int
deriving DecidableEq

/-- The anonymous `quick_reply` payload struct inside `MessageReceived`. -/
structure QuickReplyRef where
  payload : String
deriving DecidableEq

/-- Go `MultimediaPayload` struct. -/
structure MultimediaPayload where
  url : String
deriving DecidableEq

/-- Go `Coordinates` struct (`lat`/`long`; numbers modelled as integers). -/
structure Coordinates where
  lat : Int
  long : Int
deriving DecidableEq

/-- Go `LocationPayload` struct. -/
structure LocationPayload where
  coordinates : Option Coordinates
deriving DecidableEq

/-- The anonymous payload struct of `AttachmentInfo`, with the two embedded
pointer structs `MultimediaPayload` and `LocationPayload`. -/
structure AttachmentInfoPayload where
  multimedia : Option MultimediaPayload
  location : Option LocationPayload
deriving DecidableEq

/-- Go `AttachmentInfo` struct. -/
structure AttachmentInfo where
  type : String
  payload : AttachmentInfoPayload
deriving DecidableEq

/-- Go `MessageReceived` event payload (the embedded `Metadata` is carried by
the `Event` constructor in this model). -/
structure MessageReceived where
  messageID : String
  seq : Int
  text : String
  stickerID : Int
  attachments : List AttachmentInfo
  quickReply : Option QuickReplyRef
deriving DecidableEq

/-- Go `MessageDelivered` event payload. -/
structure MessageDelivered where
  messageIDs : List String
  watermark : Int
  seq : Int
deriving DecidableEq

/-- Go `MessageRead` event payload. -/
structure MessageRead where
  watermark : Int
  seq : Int
deriving DecidableEq

/-- Go `ReferralUsed` event payload. -/
structure ReferralUsed where
  type : String
  reference : String
  source : String
deriving DecidableEq

/-- Go `PostbackReceived` event payload. -/
structure PostbackReceived where
  payload : String
  referral : Option ReferralUsed
deriving DecidableEq

/-- The anonymous `account_linking` struct inside the wire callback. -/
structure AccountLinking where
  status : String
  authorizationCode : String
deriving DecidableEq

/-- Go `OptInTapped` event payload. -/
structure OptInTapped where
  reference : String
deriving DecidableEq

/-- The closed set of event variants delivered to the listener.  Each
inbound callback event pairs the dispatcher-built `Metadata` with its
payload; `accountLinked`/`accountUnlinked` carry the `authorization_code`
string field of the Go structs; `callbackUnsupported` carries the `Extra`
map (`none` models a nil Go map).  The two verification events carry no
metadata; `verificationFailed` carries the error's message string. -/
inductive Event where
  | messageReceived (md : Metadata) (m : MessageReceived) : Event
  | messageDelivered (md : Metadata) (d : MessageDelivered) : Event
  | messageRead (md : Metadata) (r : MessageRead) : Event
  | postbackReceived (md : Metadata) (p : PostbackReceived) : Event
  | accountLinked (md : Metadata) (authorizationCode : String) : Event
  | accountUnlinked (md : Metadata) (authorizationCode : String) : Event
  | optInTapped (md : Metadata) (o : OptInTapped) : Event
  | referralUsed (md : Metadata) (r : ReferralUsed) : Event
  | callbackUnsupported (md : Metadata) (extra : Option (List (String × Json))) : Event
  | verificationFailed (token : String) (errMsg : String) : Event
  | verificationCompleted (challenge : String) : Event

/-- The metadata carried by an inbound callback event (`none` for the two
verification events, which carry none). -/
def Event.metadata : Event → Option Metadata
  | Event.messageReceived md _ => some md
  | Event.messageDelivered md _ => some md
  | Event.messageRead md _ => some md
  | Event.postbackReceived md _ => some md
  | Event.accountLinked md _ => some md
  | Event.accountUnlinked md _ => some md
  | Event.optInTapped md _ => some md
  | Event.referralUsed md _ => some md
  | Event.callbackUnsupported md _ => some md
  | Event.verificationFailed _ _ => none
  | Event.verificationCompleted _ => none

/-- The anonymous `sender`/`recipient` structs of the wire callback. -/
structure IdRef where
  id : String
deriving DecidableEq

/-- The wire `callback` struct: one record of an entry's `messaging` list.
The `Extra` field is the `map[string]interface\x7b\x7d` tagged
`json:",inline"` in the source; `none` models a nil map. -/
structure Callback where
  sender : IdRef
  recipient : IdRef
  timestamp : Int
  message : Option MessageReceived
  delivery : Option MessageDelivered
  read : Option MessageRead
  postback : Option PostbackReceived
  accountLinking : Option AccountLinking
  optIn : Option OptInTapped
  referral : Option ReferralUsed
  extra : Option (List (String × Json))

/-- Go `callback.Event`: builds the `Metadata` from the given page id and the
callback's own sender id, recipient id and timestamp, then classifies the
callback along the source's if/else chain. -/
def Callback.Event (cb : Callback) (pageID : String) : Event :=
  let md : Metadata :=
    { pageID := pageID, senderID := cb.sender.id, recipientID := cb.recipient.id,
      timestamp := cb.timestamp }
  match cb.message with
  | some m => Event.messageReceived md m
  | none =>
    match cb.delivery with
    | some d => Event.messageDelivered md d
    | none =>
      match cb.read with
      | some r => Event.messageRead md r
      | none =>
        match cb.postback with
        | some p => Event.postbackReceived md p
        | none =>
          match cb.accountLinking with
          | some al =>
              if al.status == "linked" then
                Event.accountLinked md al.authorizationCode
              else
                Event.accountUnlinked md ""
          | none =>
            match cb.optIn with
            | some o => Event.optInTapped md o
            | none =>
              match cb.referral with
              | some r => Event.referralUsed md r
              | none => Event.callbackUnsupported md cb.extra

/-- One element of the decoded `entry` array: page id, entry time and the
`messaging` list. -/
structure Entry where
  id : String
  time : Int
  callbacks : List Callback

/-- Go `webhook.handleCallbacks` dispatch loop: for every entry, for every
callback of its messaging list, the event is emitted to the listener before
the next callback is processed.  The function returns the listener's log,
i.e. the emitted events in emission order. -/
def handleCallbacks (entries : List Entry) : List Event :=
  entries.foldl
    (fun log page =>
      page.callbacks.foldl (fun log cb => log ++ [cb.Event page.id]) log)
    []

/-- The fixed `ErrVerifyTokenMismatch` sentinel error message. -/
def errVerifyTokenMismatch : String := "verify token mismatch"

/-- An HTTP response as observed by the platform: status code and body. -/
structure HttpReply where
  status : Nat
  body : String
deriving DecidableEq

/-- Go `webhook.handleVerification`: checks `hub.verify_token` membership in
the configured token set and answers with 403/empty or 200/challenge,
emitting exactly one verification event.  Returns the emitted events (in
order) together with the HTTP response. -/
def handleVerification (verifyTokens : List String) (verifyToken challenge : String) :
    List Event × HttpReply :=
  if !(verifyTokens.contains verifyToken) then
    ([Event.verificationFailed verifyToken errVerifyTokenMismatch],
     { status := 403, body := "" })
  else
    ([Event.verificationCompleted challenge],
     { status := 200, body := challenge })

/-! Outbound sender response checking (`sender.go`). -/

/-- Go `fbError` struct: the typed API error. -/
structure FbError where
  message : String
  type : String
  code : Int
  errorSubcode : Int
  fbtraceID : String
deriving DecidableEq

/-- Outcome of reading and decoding a non-2xx response body.  The body
reading (`ioutil.ReadAll`) and JSON decoding (`json.Unmarshal`) are
external-library steps; their outcome, with the error message they produce
on failure, is part of the modelled input. -/
inductive BodyContent where
  | unreadable (errMsg : String) : BodyContent
  | undecodable (errMsg : String) : BodyContent
  | envelope (error : FbError) : BodyContent
deriving DecidableEq

/-- Go `Sender.checkResponse`: `none` is a nil error (success); on a non-2xx
status the decoded envelope's `fbError` is returned as-is, and a read or
decode failure yields a `fbError` carrying the failure message and the HTTP
status code.  `send` returns this error unchanged when it is non-nil. -/
def checkResponse (statusCode : Int) (body : BodyContent) : Option FbError :=
  if 200 ≤ statusCode ∧ statusCode ≤ 299 then none
  else
    match body with
    | BodyContent.unreadable errMsg =>
        some { message := errMsg, type := "", code := statusCode,
               errorSubcode := 0, fbtraceID := "" }
    | BodyContent.undecodable errMsg =>
        some { message := errMsg, type := "", code := statusCode,
               errorSubcode := 0, fbtraceID := "" }
    | BodyContent.envelope e => some e

/-! A model of `encoding/json` unmarshalling for the webhook's callback
payload.  Struct keys are matched exactly first, then case-insensitively,
as `encoding/json` does; unknown JSON keys are ignored; `null` decoded into
a value field is a no-op (the field keeps its zero value) and into a
pointer field yields nil.  A type mismatch makes the whole decode fail
(`json.Unmarshal` returns an error, upon which `handleCallbacks` answers
400 without emitting events).  A JSON `null` element inside a slice of
pointers is modelled as a decode failure: the Go code would store a nil
pointer, a case no claim exercises. -/

/-- Lower-cases one ASCII character, as Go's case-insensitive field
matching folds ASCII letters. -/
def asciiFoldChar (c : Char) : Char :=
  if 65 ≤ c.toNat ∧ c.toNat ≤ 90 then Char.ofNat (c.toNat + 32) else c

/-- ASCII case folding of a whole key. -/
def asciiFold (s : String) : String :=
  String.mk (s.data.map asciiFoldChar)

/-- Finds the JSON value for a struct field key: exact match first, then
case-insensitive (ASCII folded), as `encoding/json` matches field names. -/
def jsonLookup (fields : List (String × Json)) (key : String) : Option Json :=
  match fields.find? (fun kv => kv.1 == key) with
  | some kv => some kv.2
  | none => (fields.find? (fun kv => asciiFold kv.1 == asciiFold key)).map (fun kv => kv.2)

/-- Decodes a JSON value into a Go `string` (null is a no-op, keeping ""). -/
def decodeString : Json → Option String
  | Json.null => some ""
  | Json.str s => some s
  | _ => none

/-- Decodes a JSON value into a Go integer (null is a no-op, keeping 0). -/
def decodeInt : Json → Option Int
  | Json.null => some 0
  | Json.num n => some n
  | _ => none

/-- Decodes a string struct field: an absent key keeps the zero value. -/
def decodeStringField (fields : List (String × Json)) (key : String) : Option String :=
  match jsonLookup fields key with
  | none => some ""
  | some v => decodeString v

/-- Decodes an integer struct field: an absent key keeps the zero value. -/
def decodeIntField (fields : List (String × Json)) (key : String) : Option Int :=
  match jsonLookup fields key with
  | none => some 0
  | some v => decodeInt v

/-- Decodes a pointer-typed struct field: absent key or `null` yields nil. -/
def decodePtrField (fields : List (String × Json)) (key : String)
    (dec : Json → Option α) : Option (Option α) :=
  match jsonLookup fields key with
  | none => some none
  | some Json.null => some none
  | some v => (dec v).map some

/-- Decodes the anonymous `sender`/`recipient` struct. -/
def decodeIdRef : Json → Option IdRef
  | Json.null => some { id := "" }
  | Json.obj fields => (decodeStringField fields "id").map (fun id => { id := id })
  | _ => none

/-- Decodes `Coordinates`. -/
def decodeCoordinates : Json → Option Coordinates
  | Json.obj fields => do
      let lat ← decodeIntField fields "lat"
      let long ← decodeIntField fields "long"
      some { lat := lat, long := long }
  | _ => none

/-- Decodes the `AttachmentInfo` payload struct: its two embedded pointer
structs are allocated exactly when one of their promoted keys (`url`,
`coordinates`) appears in the JSON object. -/
def decodeAttachmentInfoPayload : Json → Option AttachmentInfoPayload
  | Json.null => some { multimedia := none, location := none }
  | Json.obj fields => do
      let multimedia ←
        match jsonLookup fields "url" with
        | none => some none
        | some v => (decodeString v).map (fun u => some { url := u })
      let location ←
        match jsonLookup fields "coordinates" with
        | none => some none
        | some Json.null => some (some { coordinates := none })
        | some v => (decodeCoordinates v).map (fun c => some { coordinates := some c })
      some { multimedia := multimedia, location := location }
  | _ => none

/-- Decodes one `AttachmentInfo`. -/
def decodeAttachmentInfo : Json → Option AttachmentInfo
  | Json.obj fields => do
      let type ← decodeStringField fields "type"
      let payload ←
        match jsonLookup fields "payload" with
        | none => some { multimedia := none, location := none }
        | some v => decodeAttachmentInfoPayload v
      some { type := type, payload := payload }
  | _ => none

/-- Decodes the anonymous `quick_reply` struct. -/
def decodeQuickReplyRef : Json → Option QuickReplyRef
  | Json.obj fields => (decodeStringField fields "payload").map (fun p => { payload := p })
  | _ => none

/-- Decodes a `MessageReceived` payload. -/
def decodeMessageReceived : Json → Option MessageReceived
  | Json.obj fields => do
      let mid ← decodeStringField fields "mid"
      let seq ← decodeIntField fields "seq"
      let text ← decodeStringField fields "text"
      let stickerID ← decodeIntField fields "sticker_id"
      let attachments ←
        match jsonLookup fields "attachments" with
        | none => some []
        | some Json.null => some []
        | some (Json.arr xs) => xs.mapM decodeAttachmentInfo
        | some _ => none
      let quickReply ← decodePtrField fields "quick_reply" decodeQuickReplyRef
      some { messageID := mid, seq := seq, text := text, stickerID := stickerID,
             attachments := attachments, quickReply := quickReply }
  | _ => none

/-- Decodes a list of Go strings (`mids`). -/
def decodeStringList (fields : List (String × Json)) (key : String) : Option (List String) :=
  match jsonLookup fields key with
  | none => some []
  | some Json.null => some []
  | some (Json.arr xs) => xs.mapM decodeString
  | some _ => none

/-- Decodes a `MessageDelivered` payload. -/
def decodeMessageDelivered : Json → Option MessageDelivered
  | Json.obj fields => do
      let mids ← decodeStringList fields "mids"
      let watermark ← decodeIntField fields "watermark"
      let seq ← decodeIntField fields "seq"
      some { messageIDs := mids, watermark := watermark, seq := seq }
  | _ => none

/-- Decodes a `MessageRead` payload. -/
def decodeMessageRead : Json → Option MessageRead
  | Json.obj fields => do
      let watermark ← decodeIntField fields "watermark"
      let seq ← decodeIntField fields "seq"
      some { watermark := watermark, seq := seq }
  | _ => none

/-- Decodes a `ReferralUsed` payload. -/
def decodeReferralUsed : Json → Option ReferralUsed
  | Json.obj fields => do
      let type ← decodeStringField fields "type"
      let reference ← decodeStringField fields "ref"
      let source ← decodeStringField fields "source"
      some { type := type, reference := reference, source := source }
  | _ => none

/-- Decodes a `PostbackReceived` payload. -/
def decodePostbackReceived : Json → Option PostbackReceived
  | Json.obj fields => do
      let payload ← decodeStringField fields "payload"
      let referral ← decodePtrField fields "referral" decodeReferralUsed
      some { payload := payload, referral := referral }
  | _ => none

/-- Decodes the anonymous `account_linking` struct. -/
def decodeAccountLinking : Json → Option AccountLinking
  | Json.obj fields => do
      let status ← decodeStringField fields "status"
      let authorizationCode ← decodeStringField fields "authorization_code"
      some { status := status, authorizationCode := authorizationCode }
  | _ => none

/-- Decodes an `OptInTapped` payload. -/
def decodeOptInTapped : Json → Option OptInTapped
  | Json.obj fields => (decodeStringField fields "ref").map (fun r => { reference := r })
  | _ => none

/-- Decodes one wire `callback` record.  The `Extra` field's struct tag is
`json:",inline"`: `encoding/json` has no `inline` option and an empty tag
name falls back to the Go field name, so the field's effective JSON key is
`Extra` — it is NOT filled from unrecognized top-level keys, which are
simply ignored. -/
def decodeCallback : Json → Option Callback
  | Json.obj fields => do
      let sender ←
        match jsonLookup fields "sender" with
        | none => some { id := "" }
        | some v => decodeIdRef v
      let recipient ←
        match jsonLookup fields "recipient" with
        | none => some { id := "" }
        | some v => decodeIdRef v
      let timestamp ← decodeIntField fields "timestamp"
      let message ← decodePtrField fields "message" decodeMessageReceived
      let delivery ← decodePtrField fields "delivery" decodeMessageDelivered
      let read ← decodePtrField fields "read" decodeMessageRead
      let postback ← decodePtrField fields "postback" decodePostbackReceived
      let accountLinking ← decodePtrField fields "account_linking" decodeAccountLinking
      let optIn ← decodePtrField fields "optin" decodeOptInTapped
      let referral ← decodePtrField fields "referral" decodeReferralUsed
      let extra ←
        match jsonLookup fields "Extra" with
        | none => some none
        | some Json.null => some none
        | some (Json.obj kvs) => some (some kvs)
        | some _ => none
      some { sender := sender, recipient := recipient, timestamp := timestamp,
             message := message, delivery := delivery, read := read,
             postback := postback, accountLinking := accountLinking,
             optIn := optIn, referral := referral, extra := extra }
  | _ => none

/-- Decodes one element of the `entry` array (a struct value, so a JSON
`null` element keeps the zero entry). -/
def decodeEntry : Json → Option Entry
  | Json.null => some { id := "", time := 0, callbacks := [] }
  | Json.obj fields => do
      let id ← decodeStringField fields "id"
      let time ← decodeIntField fields "time"
      let callbacks ←
        match jsonLookup fields "messaging" with
        | none => some []
        | some Json.null => some []
        | some (Json.arr xs) => xs.mapM decodeCallback
        | some _ => none
      some { id := id, time := time, callbacks := callbacks }
  | _ => none

/-- Decodes the whole POST body into the anonymous `cbs` struct of
`handleCallbacks` (its `object` string is decoded but unused). -/
def decodeWebhookBody : Json → Option (List Entry)
  | Json.null => some []
  | Json.obj fields => do
      let _ ← decodeStringField fields "object"
      match jsonLookup fields "entry" with
      | none => some []
      | some Json.null => some []
      | some (Json.arr xs) => xs.mapM decodeEntry
      | some _ => none
  | _ => none

/-- The POST path of the webhook on a syntactically valid JSON body: a body
that does not decode into the `cbs` struct yields 400 and no events,
otherwise all events are dispatched and the reply is 200 with empty body. -/
def handlePost (body : Json) : List Event × HttpReply :=
  match decodeWebhookBody body with
  | none => ([], { status := 400, body := "" })
  | some entries => (handleCallbacks entries, { status := 200, body := "" })

/-! Specification-side classifier, used to state the refinement claims: an
explicit ordered list of predicate/constructor pairs tried first-match-wins,
in the spec's documented order. -/

/-- The spec's classifier chain, in its documented precedence order:
message, delivery, read, postback, account_linking (sub-classified on
`status`), optin, referral. -/
def specClassifiers : List (Callback → Metadata → Option Event) :=
  [fun cb md => cb.message.map (fun m => Event.messageReceived md m),
   fun cb md => cb.delivery.map (fun d => Event.messageDelivered md d),
   fun cb md => cb.read.map (fun r => Event.messageRead md r),
   fun cb md => cb.postback.map (fun p => Event.postbackReceived md p),
   fun cb md => cb.accountLinking.map (fun al =>
     if al.status == "linked" then Event.accountLinked md al.authorizationCode
     else Event.accountUnlinked md ""),
   fun cb md => cb.optIn.map (fun o => Event.optInTapped md o),
   fun cb md => cb.referral.map (fun r => Event.referralUsed md r)]

/-- First-match-wins evaluation of a classifier chain; when no classifier
matches, the callback is unsupported and carries its `Extra` map. -/
def firstMatch (cb : Callback) (md : Metadata) :
    List (Callback → Metadata → Option Event) → Event
  | [] => Event.callbackUnsupported md cb.extra
  | f :: fs =>
      match f cb md with
      | some e => e
      | none => firstMatch cb md fs

/-- Specification-side classification of one callback. -/
def specFirstMatchClassify (cb : Callback) (md : Metadata) : Event :=
  firstMatch cb md specClassifiers

/-- The metadata the dispatcher builds for a callback of a given page. -/
def dispatchMetadata (pageID : String) (cb : Callback) : Metadata :=
  { pageID := pageID, senderID := cb.sender.id, recipientID := cb.recipient.id,
    timestamp := cb.timestamp }

theorem Callback.Event_eq_firstMatch (cb : Callback) (pid : String) :
    cb.Event pid = specFirstMatchClassify cb (dispatchMetadata pid cb) := by
  obtain ⟨s, r, t, msg, dlv, rd, pb, al, oi, rf, ex⟩ := cb
  cases msg <;> cases dlv <;> cases rd <;> cases pb <;> cases al <;> cases oi <;> cases rf <;>
    simp [Callback.Event, specFirstMatchClassify, specClassifiers, firstMatch, dispatchMetadata]

theorem foldl_emit_eq_map (pid : String) (cbs : List Callback) (log : List Event) :
    cbs.foldl (fun log cb => log ++ [cb.Event pid]) log
      = log ++ cbs.map (fun cb => cb.Event pid) := by
  induction cbs generalizing log with
  | nil => simp
  | cons c cs ih => simp [List.foldl_cons, ih]

theorem handleCallbacks_eq_join (entries : List Entry) :
    handleCallbacks entries
      = (entries.map (fun page => page.callbacks.map (fun cb => cb.Event page.id))).flatten := by
  unfold handleCallbacks
  suffices h : ∀ log : List Event,
      entries.foldl
        (fun log page => page.callbacks.foldl (fun log cb => log ++ [cb.Event page.id]) log)
        log
      = log ++ (entries.map (fun page => page.callbacks.map (fun cb => cb.Event page.id))).flatten by
    simpa using h []
  induction entries with
  | nil => simp
  | cons p ps ih =>
      intro log
      rw [List.foldl_cons, foldl_emit_eq_map, ih]
      simp [List.append_assoc]

/-- C1: every POST callback is classified first-match-wins in the order
message, delivery, read, postback, account_linking, optin, referral, else
CallbackUnsupported; exactly one event is produced per callback, and the
listener receives the events in array order, per entry and per messaging
list (the emission log is exactly the in-order concatenation, so each event
is delivered before the next callback is processed). -/
theorem claim_C1_dispatch_first_match_in_order (entries : List Entry) :
    handleCallbacks entries
      = (entries.map (fun page =>
          page.callbacks.map (fun cb =>
            specFirstMatchClassify cb (dispatchMetadata page.id cb)))).flatten := by
  simp [handleCallbacks_eq_join, Callback.Event_eq_firstMatch]

theorem sourceList_ok {α : Type} {f : α → Except String GoVal}
    (hf : ∀ x, ∃ v, f x = Except.ok v) (xs : List α) :
    ∃ vs, sourceList f xs = Except.ok vs := by
  induction xs with
  | nil => exact ⟨[], rfl⟩
  | cons x xs ih =>
      obtain ⟨v, hv⟩ := hf x
      obtain ⟨vs, hvs⟩ := ih
      exact ⟨v :: vs, by simp [sourceList, hv, hvs]⟩

theorem sourceList_quickReply_ok (qrs : List QuickReply) :
    ∃ vs, sourceList QuickReply.Source qrs = Except.ok vs :=
  sourceList_ok (fun _q => ⟨_, rfl⟩) qrs

theorem recipientSource_ok (r : Recipient) : ∃ v, r.Source = Except.ok v := by
  cases r <;> exact ⟨_, rfl⟩

/-- C2: a `Message` with non-empty text and a non-nil attachment renders
successfully, and only the text branch is emitted: the rendered `message`
object binds `text` and has no `attachment` key. -/
theorem claim_C2_text_wins_over_attachment (m : Message) (a : Attachment)
    (htext : m.text ≠ "") (hatt : m.attachment = some a) :
    ∃ v, m.Source = Except.ok v
      ∧ ∃ msgFields, v.getKey "message" = some (GoVal.obj msgFields)
        ∧ lookupKey msgFields "text" = some (GoVal.str m.text)
        ∧ lookupKey msgFields "attachment" = none := by
  obtain ⟨rcpt, text, att, qrs, meta, nt⟩ := m
  simp only [Message.Source]
  simp only at htext hatt
  obtain ⟨tv, htv⟩ := recipientSource_ok rcpt
  rw [htv]
  have hb : (text != "") = true := bne_iff_ne.mpr htext
  cases qrs with
  | nil =>
      simp only [hb, List.length_nil, if_true, if_false]
      refine ⟨_, rfl, _, rfl, rfl, ?_⟩
      split <;> simp [lookupKey]
  | cons q qs =>
      obtain ⟨vs, hvs⟩ := sourceList_quickReply_ok (q :: qs)
      have hlen : qs.length + 1 > 0 := Nat.succ_pos qs.length
      simp only [hb, hvs, List.length_cons, if_true, if_pos hlen]
      refine ⟨_, rfl, _, rfl, rfl, ?_⟩
      split <;> simp [lookupKey]

/-- Witness for C2 at a concrete message: text "hi" together with a
multimedia attachment renders with a `text` key and no `attachment` key. -/
theorem claim_C2_witness :
    ∃ v, (Message.mk (Recipient.user "U") "hi"
        (some (Attachment.multimedia (MultimediaAttachment.mk "image" "http://x" "" false)))
        [] "" "").Source = Except.ok v
      ∧ ∃ msgFields, v.getKey "message" = some (GoVal.obj msgFields)
        ∧ lookupKey msgFields "text" = some (GoVal.str "hi")
        ∧ lookupKey msgFields "attachment" = none :=
  claim_C2_text_wins_over_attachment _ _ (by decide) rfl

theorem Event_metadata_eq (cb : Callback) (pid : String) :
    (cb.Event pid).metadata = some (dispatchMetadata pid cb) := by
  obtain ⟨s, r, t, msg, dlv, rd, pb, al, oi, rf, ex⟩ := cb
  cases msg <;> cases dlv <;> cases rd <;> cases pb <;> cases al <;> cases oi <;> cases rf <;>
    simp only [Callback.Event] <;> (try split) <;> simp [Event.metadata, dispatchMetadata]

/-- C4 counterexample: for the entry `id:"P1", time:100` whose single
callback has its own `timestamp:200`, the emitted event's metadata carries
timestamp 200, not the entry's time 100 — the dispatcher reads the
callback's own `timestamp` field, and the entry's `time` is parsed but
unused. -/
theorem claim_C4_counterexample :
    (handleCallbacks
        [{ id := "P1", time := 100,
           callbacks := [{ sender := { id := "U1" },
                           recipient := { id := "R1" },
                           timestamp := 200, message := none, delivery := none,
                           read := none, postback := none, accountLinking := none,
                           optIn := none, referral := none, extra := none }] }]).map
      Event.metadata
      = [some { pageID := "P1", senderID := "U1", recipientID := "R1", timestamp := 200 }]
    ∧ some ({ pageID := "P1", senderID := "U1", recipientID := "R1", timestamp := 200 } : Metadata)
      ≠ some { pageID := "P1", senderID := "U1", recipientID := "R1", timestamp := 100 } := by
  constructor
  · rfl
  · decide

/-- C4 (amended): the metadata attached to each emitted event is built from
the enclosing entry's id (as PageID) and the callback's own timestamp (as
Timestamp) — not the entry's time, which is parsed but unused — together
with the callback's own sender and recipient ids. -/
theorem claim_C4_amended_metadata (entries : List Entry) :
    (handleCallbacks entries).map Event.metadata
      = (entries.map (fun page =>
          page.callbacks.map (fun cb => some (dispatchMetadata page.id cb)))).flatten := by
  simp [handleCallbacks_eq_join, Event_metadata_eq, Function.comp_def]

/-- C5: a GET verification request against a configured token set emits
exactly one VerificationFailed event carrying the offending token and the
fixed verify-token-mismatch error with an HTTP 403 empty-body reply when
the token is not in the set (in particular always, when the set is empty),
and otherwise exactly one VerificationCompleted event carrying the
challenge with an HTTP 200 reply whose body is the challenge verbatim. -/
theorem claim_C5_verification (verifyTokens : List String) (token challenge : String) :
    (token ∉ verifyTokens →
      handleVerification verifyTokens token challenge
        = ([Event.verificationFailed token errVerifyTokenMismatch],
           { status := 403, body := "" }))
    ∧ (token ∈ verifyTokens →
      handleVerification verifyTokens token challenge
        = ([Event.verificationCompleted challenge],
           { status := 200, body := challenge })) := by
  unfold handleVerification
  constructor <;> intro h <;> simp [h]

/-- Witness for C5: with the token set containing exactly "good", the token
"bad" yields the failure event and 403 with empty body, and the token
"good" yields the completed event and 200 echoing the challenge. -/
theorem claim_C5_witness :
    handleVerification ["good"] "bad" "ch"
      = ([Event.verificationFailed "bad" errVerifyTokenMismatch],
         { status := 403, body := "" })
    ∧ handleVerification ["good"] "good" "ch"
      = ([Event.verificationCompleted "ch"], { status := 200, body := "ch" }) :=
  ⟨(claim_C5_verification ["good"] "bad" "ch").1 (by decide),
   (claim_C5_verification ["good"] "good" "ch").2 (by decide)⟩

/-- C6: on a non-2xx status, a body decoding as the platform error envelope
yields exactly the envelope's typed error; an unreadable or undecodable
body yields a typed error carrying the failure message and the HTTP status
code; and `checkResponse` never returns success (a nil error) for a non-2xx
status, so `send` never returns success there. -/
theorem claim_C6_non2xx_typed_error (statusCode : Int) (body : BodyContent)
    (h : ¬(200 ≤ statusCode ∧ statusCode ≤ 299)) :
    (∀ e, body = BodyContent.envelope e → checkResponse statusCode body = some e)
    ∧ (∀ msg, body = BodyContent.unreadable msg ∨ body = BodyContent.undecodable msg →
        checkResponse statusCode body
          = some { message := msg, type := "", code := statusCode,
                   errorSubcode := 0, fbtraceID := "" })
    ∧ checkResponse statusCode body ≠ none := by
  unfold checkResponse
  rw [if_neg h]
  refine ⟨?_, ?_, ?_⟩
  · intro e he; rw [he]
  · intro msg hm; rcases hm with hm | hm <;> rw [hm]
  · cases body <;> simp

/-- Witness for C6 at status 500: a decoded envelope comes back verbatim as
the typed error, and an undecodable body yields the failure message with
code 500. -/
theorem claim_C6_witness :
    checkResponse 500 (BodyContent.envelope
        { message := "bad", type := "OAuthException", code := 190,
          errorSubcode := 460, fbtraceID := "tr" })
      = some { message := "bad", type := "OAuthException", code := 190,
               errorSubcode := 460, fbtraceID := "tr" }
    ∧ checkResponse 500 (BodyContent.undecodable "invalid character")
      = some { message := "invalid character", type := "", code := 500,
               errorSubcode := 0, fbtraceID := "" } :=
  ⟨(claim_C6_non2xx_typed_error 500 _ (by decide)).1 _ rfl,
   (claim_C6_non2xx_typed_error 500 _ (by decide)).2.1 _ (Or.inr rfl)⟩

/-- C7: when the account-linking branch of the classification is reached
(no message, delivery, read or postback field is present) and the callback
carries an `account_linking` object, status "linked" yields AccountLinked
carrying the payload's authorization code, and any other status yields
AccountUnlinked whose authorization-code field is the empty string, never
read from the payload. -/
theorem claim_C7_account_linking (cb : Callback) (pid : String) (al : AccountLinking)
    (hm : cb.message = none) (hd : cb.delivery = none) (hr : cb.read = none)
    (hp : cb.postback = none) (hal : cb.accountLinking = some al) :
    (al.status = "linked" →
      cb.Event pid = Event.accountLinked (dispatchMetadata pid cb) al.authorizationCode)
    ∧ (al.status ≠ "linked" →
      cb.Event pid = Event.accountUnlinked (dispatchMetadata pid cb) "") := by
  unfold Callback.Event dispatchMetadata
  rw [hm, hd, hr, hp, hal]
  constructor <;> intro h <;> simp [h]

/-- Witness for C7: a callback with `account_linking` status "linked" and
authorization code "AUTH" yields AccountLinked carrying "AUTH"; with status
"unlinked" and the same code in the payload, AccountUnlinked carries "". -/
theorem claim_C7_witness :
    ({ sender := { id := "U" }, recipient := { id := "R" }, timestamp := 5,
       message := none, delivery := none, read := none, postback := none,
       accountLinking := some { status := "linked", authorizationCode := "AUTH" },
       optIn := none, referral := none, extra := none } : Callback).Event "P"
      = Event.accountLinked
          { pageID := "P", senderID := "U", recipientID := "R", timestamp := 5 } "AUTH"
    ∧ ({ sender := { id := "U" }, recipient := { id := "R" }, timestamp := 5,
         message := none, delivery := none, read := none, postback := none,
         accountLinking := some { status := "unlinked", authorizationCode := "AUTH" },
         optIn := none, referral := none, extra := none } : Callback).Event "P"
      = Event.accountUnlinked
          { pageID := "P", senderID := "U", recipientID := "R", timestamp := 5 } "" :=
  ⟨(claim_C7_account_linking _ "P" { status := "linked", authorizationCode := "AUTH" }
      rfl rfl rfl rfl rfl).1 rfl,
   (claim_C7_account_linking _ "P" { status := "unlinked", authorizationCode := "AUTH" }
      rfl rfl rfl rfl rfl).2 (by decide)⟩

/-- C3 (code bug): the `Extra` field's struct tag `json:",inline"` is not
an `encoding/json` option; the empty tag name falls back to the Go field
name, so `Extra` is only ever filled from a top-level key literally named
"Extra".  At the failing input — a callback whose only top-level key is the
unrecognized `"foo":"bar"` — the full POST path emits a CallbackUnsupported
event whose Extra map is nil instead of carrying `("foo","bar")` verbatim,
contradicting the claim (and the evident intent of the inline tag). -/
theorem claim_C3_extra_not_captured :
    handlePost (Json.obj [("object", Json.str "page"),
        ("entry", Json.arr [Json.obj [("id", Json.str "P1"), ("time", Json.num 1),
          ("messaging", Json.arr [Json.obj [("foo", Json.str "bar")]])]])])
      = ([Event.callbackUnsupported
            { pageID := "P1", senderID := "", recipientID := "", timestamp := 0 } none],
         { status := 200, body := "" })
    ∧ decodeCallback (Json.obj [("foo", Json.str "bar")])
      = some { sender := { id := "" }, recipient := { id := "" }, timestamp := 0,
               message := none, delivery := none, read := none, postback := none,
               accountLinking := none, optIn := none, referral := none,
               extra := none } := by
  constructor
  · rfl
  · rfl

theorem buttonSource_ok (b : Button) : ∃ v, b.Source = Except.ok v := by
  cases b <;> exact ⟨_, rfl⟩

theorem elementSource_ok (e : Element) : ∃ v, e.Source = Except.ok v := by
  obtain ⟨title, sub, iu, im, btns, da⟩ := e
  obtain ⟨vs, hvs⟩ := sourceList_ok buttonSource_ok btns
  cases da with
  | none =>
      cases btns with
      | nil => exact ⟨_, rfl⟩
      | cons b bs =>
          simp only [Element.Source, hvs, List.length_cons,
            if_pos (Nat.succ_pos bs.length)]
          exact ⟨_, rfl⟩
  | some db =>
      obtain ⟨bv, hbv⟩ := buttonSource_ok db
      cases btns with
      | nil =>
          simp only [Element.Source, hbv, List.length_nil]
          exact ⟨_, rfl⟩
      | cons b bs =>
          simp only [Element.Source, hvs, hbv, List.length_cons,
            if_pos (Nat.succ_pos bs.length)]
          exact ⟨_, rfl⟩

theorem attachmentSource_ok (a : Attachment) : ∃ v, a.Source = Except.ok v := by
  cases a with
  | multimedia a => exact ⟨_, rfl⟩
  | buttonTemplate t =>
      obtain ⟨vs, hvs⟩ := sourceList_ok buttonSource_ok t.buttons
      simp only [Attachment.Source, ButtonTemplate.Source, hvs]
      exact ⟨_, rfl⟩
  | genericTemplate t =>
      obtain ⟨vs, hvs⟩ := sourceList_ok elementSource_ok t.elements
      simp only [Attachment.Source, GenericTemplate.Source, hvs]
      exact ⟨_, rfl⟩
  | listTemplate t =>
      obtain ⟨es, hes⟩ := sourceList_ok elementSource_ok t.elements
      obtain ⟨style, hstyle⟩ : ∃ s, t.topElementStyle = s := ⟨_, rfl⟩
      obtain ⟨bvs, hbvs⟩ := sourceList_ok buttonSource_ok t.buttons
      rcases hb : t.buttons with _ | ⟨b, bs⟩
      · simp only [Attachment.Source, ListTemplate.Source, hes, hb, List.length_nil]
        exact ⟨_, rfl⟩
      · rw [hb] at hbvs
        simp only [Attachment.Source, ListTemplate.Source, hes, hb, hbvs,
          List.length_cons, if_pos (Nat.succ_pos bs.length)]
        exact ⟨_, rfl⟩

theorem messageSource_ok (m : Message) : ∃ v, m.Source = Except.ok v := by
  obtain ⟨rcpt, text, att, qrs, meta, nt⟩ := m
  obtain ⟨tv, htv⟩ := recipientSource_ok rcpt
  obtain ⟨qvs, hqvs⟩ := sourceList_quickReply_ok qrs
  rcases htext : text != "" with _ | _
  · rcases att with _ | a
    · simp only [Message.Source, htv, htext, Bool.false_eq_true, if_false]
      exact ⟨_, rfl⟩
    · obtain ⟨av, hav⟩ := attachmentSource_ok a
      simp only [Message.Source, htv, htext, Bool.false_eq_true, if_false, hav]
      exact ⟨_, rfl⟩
  · rcases qrs with _ | ⟨q, qs⟩
    · simp only [Message.Source, htv, htext, if_true, List.length_nil]
      exact ⟨_, rfl⟩
    · have hlen : qs.length + 1 > 0 := Nat.succ_pos qs.length
      simp only [Message.Source, htv, htext, if_true, hqvs, List.length_cons,
        if_pos hlen]
      exact ⟨_, rfl⟩

/-- C10: for every value of the library's own closed object-model types —
the interface-typed children that Go would allow to be nil are modelled by
`Option`, and a `Message` is built with its required non-nil recipient —
`Source` returns a nil error: leaf variants return nil unconditionally and
composite variants only propagate child errors, so no render ever fails and
the serialization-failure branch of `Sender.SendMessage` (which returns
`msg.Source()`'s error unchanged) is never taken for these values. -/
theorem claim_C10_source_always_ok :
    (∀ r : Recipient, ∃ v, r.Source = Except.ok v)
    ∧ (∀ qr : QuickReply, ∃ v, qr.Source = Except.ok v)
    ∧ (∀ b : Button, ∃ v, b.Source = Except.ok v)
    ∧ (∀ e : Element, ∃ v, e.Source = Except.ok v)
    ∧ (∀ a : Attachment, ∃ v, a.Source = Except.ok v)
    ∧ (∀ m : Message, ∃ v, m.Source = Except.ok v) :=
  ⟨recipientSource_ok, fun _ => ⟨_, rfl⟩, buttonSource_ok, elementSource_ok,
   attachmentSource_ok, messageSource_ok⟩

/-- C8: rendering each object-model variant with all optional fields unset
omits the corresponding keys entirely (they are absent, not null), except
that QuickReply's `content_type` is always present with its explicit
default.  Variants whose fields are all required (PostbackButton,
CallButton, ShareButton, the account link/unlink buttons, ButtonTemplate,
GenericTemplate, User, PhoneNumber) have no optional key to omit.
Determinism is inherent: every `Source` is a pure function of its input. -/
theorem claim_C8_unset_optionals_omitted :
    (∀ r : Recipient, (Message.mk r "" none [] "" "").Source
        = (r.Source).map (fun tv => GoVal.obj [("recipient", tv),
            ("message", GoVal.obj [])]))
    ∧ (∀ loc : Bool, (QuickReply.mk "" "" "" loc).Source
        = Except.ok (GoVal.obj [("content_type",
            GoVal.str (if loc then "location" else "text"))]))
    ∧ (∀ t u : String, (MultimediaAttachment.mk t u "" false).Source
        = Except.ok (GoVal.obj [("type", GoVal.str t),
            ("payload", GoVal.obj [("url", GoVal.str u)])]))
    ∧ (∀ title : String, (Element.mk title "" "" "" [] none).Source
        = Except.ok (GoVal.obj [("title", GoVal.str title)]))
    ∧ (∀ title url : String, (Button.url (URLButton.mk title url "" false "")).Source
        = Except.ok (GoVal.obj [("type", GoVal.str "web_url"),
            ("title", GoVal.str title), ("url", GoVal.str url)]))
    ∧ ((ListTemplate.mk [] "" []).Source
        = Except.ok (GoVal.obj [("type", GoVal.str "template"),
            ("payload", GoVal.obj [("template_type", GoVal.str "list"),
              ("elements", GoVal.nilSlice)])])) := by
  refine ⟨?_, ?_, ?_, ?_, ?_, ?_⟩
  · intro r; cases r <;> rfl
  · intro loc; cases loc <;> rfl
  · intro t u; rfl
  · intro title; rfl
  · intro title url; rfl
  · rfl

/-- C9: a ButtonTemplate with an empty button list, and a GenericTemplate
or ListTemplate with an empty element list, still emit the `buttons` /
`elements` key, mapped to the nil slice, which marshals as JSON `null`
rather than as an empty array. -/
theorem claim_C9_empty_lists_serialize_null :
    (∀ text : String, (ButtonTemplate.mk text []).Source
        = Except.ok (GoVal.obj [("type", GoVal.str "template"),
            ("payload", GoVal.obj [("template_type", GoVal.str "button"),
              ("text", GoVal.str text), ("buttons", GoVal.nilSlice)])]))
    ∧ ((GenericTemplate.mk []).Source
        = Except.ok (GoVal.obj [("type", GoVal.str "template"),
            ("payload", GoVal.obj [("template_type", GoVal.str "generic"),
              ("elements", GoVal.nilSlice)])]))
    ∧ (∀ style : String, ∃ payloadFields,
        (ListTemplate.mk [] style []).Source
          = Except.ok (GoVal.obj [("type", GoVal.str "template"),
              ("payload", GoVal.obj payloadFields)])
        ∧ lookupKey payloadFields "elements" = some GoVal.nilSlice)
    ∧ GoVal.marshal GoVal.nilSlice = Json.null
    ∧ Json.null ≠ Json.arr [] := by
  refine ⟨?_, ?_, ?_, ?_, ?_⟩
  · intro text; rfl
  · rfl
  · intro style
    rcases h : style != "" with _ | _ <;>
      · refine ⟨_, rfl, ?_⟩
        simp [h, lookupKey, goSlice]
  · rfl
  · simp

end Fbmessenger
